import Mathlib

set_option maxRecDepth 200000

/-!
Shallow embedding of the image-loading performance tracker
(`src/app/utils/imagePerformance.ts`, class `ImageLoadingPerformance`) and the
error path of the lazy image component (`src/app/_components/LazyImage.tsx`).

The mutable fields of the tracker become a `PerformanceMetrics` record
threaded explicitly; `Date.now()` becomes an explicit `now : Int` argument.  The
JavaScript `Set<string>` is modelled as a duplicate-free `List String` in
insertion order: `add` appends when absent (a JS `Set.add` of a present key
keeps its position), `delete` removes the element, `values().next().value`
is the head, and iteration order is list order.  JavaScript truthiness of a
string (`if (firstItem)`) is the test `firstItem ≠ ""`.
-/

structure PerformanceMetrics where
  imageLoadStart : Int
  imageLoadEnd : Int
  totalImages : Int
  loadedImages : Int
deriving DecidableEq, Repr

/-- The initial value of `this.metrics` (all fields 0). -/
def initialMetrics : PerformanceMetrics :=
  { imageLoadStart := 0, imageLoadEnd := 0, totalImages := 0, loadedImages := 0 }

/-- `startTracking(totalImages)`: sets the start time to the current time,
the total to the argument, the loaded count to 0; `imageLoadEnd` is untouched. -/
def startTracking (m : PerformanceMetrics) (now : Int) (totalImages : Int) :
    PerformanceMetrics :=
  { m with imageLoadStart := now, totalImages := totalImages, loadedImages := 0 }

/-- `onImageLoaded()`: increments the loaded count; when it equals the total,
records the end time (the completion branch). -/
def onImageLoaded (m : PerformanceMetrics) (now : Int) : PerformanceMetrics :=
  if m.loadedImages + 1 = m.totalImages then
    { m with loadedImages := m.loadedImages + 1, imageLoadEnd := now }
  else
    { m with loadedImages := m.loadedImages + 1 }

/-- The guard of the completion branch inside `onImageLoaded`:
`this.metrics.loadedImages === this.metrics.totalImages` right after the
increment. -/
def completionFires (m : PerformanceMetrics) : Prop :=
  m.loadedImages + 1 = m.totalImages

instance (m : PerformanceMetrics) : Decidable (completionFires m) := by
  unfold completionFires
  infer_instance

/-- `getProgress()`: `loaded / total` when the total is positive, else 0.
JavaScript division on these counters is modelled as exact rational division. -/
def getProgress (m : PerformanceMetrics) : ℚ :=
  if 0 < m.totalImages then
    (m.loadedImages : ℚ) / (m.totalImages : ℚ)
  else
    0

/-- `getMetrics()`: returns a shallow copy of the metrics record; on an
immutable record a copy is the record itself. -/
def getMetrics (m : PerformanceMetrics) : PerformanceMetrics := m

/-- `this.maxCacheSize = 50`. -/
def maxCacheSize : Nat := 50

/-- JS `Set.add`: appends the key if absent, otherwise leaves the set
(and its iteration order) unchanged. -/
def setAdd (c : List String) (k : String) : List String :=
  if k ∈ c then c else c ++ [k]

/-- JS `Set.delete`: removes the key. -/
def setDelete (c : List String) (k : String) : List String :=
  c.erase k

/-- JS `Set.has`. -/
def setHas (c : List String) (k : String) : Bool :=
  c.contains k

/-- An argument to `isImageCached` / `cacheImage`: either a plain string or
an object; for an object we record its `uri` field (absent = `none`) and the
result of `String(imageSource)` (for a plain object literal,
`"[object Object]"`). -/
inductive ImageSource where
  | str : String → ImageSource
  | obj : Option String → String → ImageSource
deriving DecidableEq, Repr

/-- The identifier derivation shared by `isImageCached` and `cacheImage`:
`typeof s === "string" ? s : s?.uri || String(s)`.  The `||` falls through to
`String(s)` when `uri` is absent or is the falsy empty string. -/
def imageKeyOf : ImageSource → String
  | .str s => s
  | .obj uri fallback =>
    match uri with
    | some u => if u = "" then fallback else u
    | none => fallback

/-- `isImageCached(imageSource)`: derives the key and checks membership. -/
def isImageCached (c : List String) (src : ImageSource) : Bool :=
  setHas c (imageKeyOf src)

/-- `cacheImage(imageSource)`: when the set is at capacity, takes the first
iteration-order entry and deletes it only if it is truthy (a non-empty
string); then adds the derived key. -/
def cacheImage (c : List String) (src : ImageSource) : List String :=
  setAdd
    (if maxCacheSize ≤ c.length then
      match c.head? with
      | some firstItem => if firstItem = "" then c else setDelete c firstItem
      | none => c
    else c)
    (imageKeyOf src)

/-- `clearCache()`: empties the set. -/
def clearCache (_ : List String) : List String := []

/-! Traces of public tracker calls, for the claims quantifying over
"every sequence of `startTracking` and `onImageLoaded` calls".  Each event
carries the wall-clock reading `Date.now()` would return at that call.  The
state also counts how many times the completion branch has been entered. -/

inductive TrackerEvent where
  | start : Int → Int → TrackerEvent
  | loaded : Int → TrackerEvent
deriving DecidableEq, Repr

structure TrackerState where
  metrics : PerformanceMetrics
  completions : Nat
deriving DecidableEq, Repr

def initState : TrackerState :=
  { metrics := initialMetrics, completions := 0 }

def stepTracker (st : TrackerState) : TrackerEvent → TrackerState
  | .start n now =>
    { st with metrics := startTracking st.metrics now n }
  | .loaded now =>
    { metrics := onImageLoaded st.metrics now,
      completions := st.completions + if completionFires st.metrics then 1 else 0 }

def runTrace (st : TrackerState) (tr : List TrackerEvent) : TrackerState :=
  tr.foldl stepTracker st

/-! Embedding of the lazy image component (`LazyImage.tsx`): its local state
flags, its load/error event handlers, and what its JSX renders as a function
of that state.  Callback invocations (`onLoad?.()`, `onError?.()`) and the
calls into the shared tracker are recorded in a log so a theorem can count
them. -/

structure LazyState where
  isLoaded : Bool
  isInView : Bool
  hasError : Bool
  shouldLoad : Bool
deriving DecidableEq, Repr

structure CallbackLog where
  onLoadCalls : Nat
  onErrorCalls : Nat
  onImageLoadedCalls : Nat
deriving DecidableEq, Repr

structure HandlerResult where
  state : LazyState
  cache : List String
  metrics : PerformanceMetrics
  log : CallbackLog
deriving DecidableEq, Repr

/-- `handleImageLoad`: sets `isLoaded`, records the source in the tracker
cache, notifies the tracker of one completed load, invokes `onLoad`. -/
def handleImageLoad (s : LazyState) (src : ImageSource) (cache : List String)
    (m : PerformanceMetrics) (now : Int) : HandlerResult :=
  { state := { s with isLoaded := true },
    cache := cacheImage cache src,
    metrics := onImageLoaded m now,
    log := { onLoadCalls := 1, onErrorCalls := 0, onImageLoadedCalls := 1 } }

/-- `handleImageError`: sets `hasError`, warns, invokes `onError`.  It calls
neither `cacheImage` nor `onImageLoaded`, so cache and metrics pass through. -/
def handleImageError (s : LazyState) (cache : List String)
    (m : PerformanceMetrics) : HandlerResult :=
  { state := { s with hasError := true },
    cache := cache,
    metrics := m,
    log := { onLoadCalls := 0, onErrorCalls := 1, onImageLoadedCalls := 0 } }

structure RenderOutput where
  showsImage : Bool
  showsLoadingPlaceholder : Bool
  showsErrorPlaceholder : Bool
deriving DecidableEq, Repr

/-- The JSX of the component as a function of its state.  Fast path: when the
source is cached and there is no error, only the image is rendered.
Otherwise: the loading placeholder while `shouldLoad` is false, or while
loading without error before `isLoaded`; the image when `shouldLoad` and no
error; the error placeholder when `hasError`. -/
def renderLazyImage (cache : List String) (src : ImageSource) (s : LazyState) :
    RenderOutput :=
  if isImageCached cache src && !s.hasError then
    { showsImage := true, showsLoadingPlaceholder := false,
      showsErrorPlaceholder := false }
  else
    { showsImage := s.shouldLoad && !s.hasError,
      showsLoadingPlaceholder :=
        !s.shouldLoad || (s.shouldLoad && !s.hasError && !s.isLoaded),
      showsErrorPlaceholder := s.hasError }

/-! Concrete cache states used by counterexamples, built only from
`cacheImage` starting at the empty set, so they are reachable states of the
program. -/

/-- Fifty distinct non-empty keys `k0 … k49`. -/
def demoKeys : List String :=
  (List.range 50).map fun i => "k" ++ toString i

/-- The cache after inserting `k0 … k49` into an empty cache: exactly at
capacity, oldest entry `k0`. -/
def fullCache : List String :=
  (demoKeys.map ImageSource.str).foldl cacheImage []

/-- The cache after inserting the empty-string key and then `k0 … k48`:
exactly at capacity, oldest entry the (falsy) empty string. -/
def emptyHeadCache : List String :=
  ((ImageSource.str "" :: (demoKeys.take 49).map ImageSource.str)).foldl cacheImage []

/-! Helper lemmas about single steps and runs of the tracker. -/

theorem onImageLoaded_loadedImages (m : PerformanceMetrics) (now : Int) :
    (onImageLoaded m now).loadedImages = m.loadedImages + 1 := by
  unfold onImageLoaded
  split <;> rfl

theorem onImageLoaded_totalImages (m : PerformanceMetrics) (now : Int) :
    (onImageLoaded m now).totalImages = m.totalImages := by
  unfold onImageLoaded
  split <;> rfl

theorem runTrace_nil (st : TrackerState) : runTrace st [] = st := rfl

theorem runTrace_cons (st : TrackerState) (e : TrackerEvent) (tr : List TrackerEvent) :
    runTrace st (e :: tr) = runTrace (stepTracker st e) tr := rfl

theorem runTrace_loadedImages_nonneg (tr : List TrackerEvent) (st : TrackerState)
    (hst : 0 ≤ st.metrics.loadedImages) :
    0 ≤ (runTrace st tr).metrics.loadedImages := by
  induction tr generalizing st with
  | nil => exact hst
  | cons e tr ih =>
    rw [runTrace_cons]
    apply ih
    cases e with
    | start n now => simp [stepTracker, startTracking]
    | loaded now =>
      simp only [stepTracker, onImageLoaded_loadedImages]
      omega

theorem runTrace_replicate_loaded (j : Nat) (now : Int) (st : TrackerState) :
    (runTrace st (List.replicate j (TrackerEvent.loaded now))).metrics.loadedImages
      = st.metrics.loadedImages + j ∧
    (runTrace st (List.replicate j (TrackerEvent.loaded now))).metrics.totalImages
      = st.metrics.totalImages ∧
    (runTrace st (List.replicate j (TrackerEvent.loaded now))).completions
      = st.completions +
        (if st.metrics.loadedImages < st.metrics.totalImages ∧
            st.metrics.totalImages ≤ st.metrics.loadedImages + j then 1 else 0) := by
  induction j generalizing st with
  | zero =>
    refine ⟨by simp [runTrace], by simp [runTrace], ?_⟩
    simp only [List.replicate, runTrace, List.foldl]
    split_ifs with h <;> push_cast at h ⊢ <;> omega
  | succ j ih =>
    rw [List.replicate_succ, runTrace_cons]
    obtain ⟨h1, h2, h3⟩ := ih (stepTracker st (TrackerEvent.loaded now))
    refine ⟨?_, ?_, ?_⟩
    · rw [h1]
      simp only [stepTracker, onImageLoaded_loadedImages]
      push_cast
      ring
    · rw [h2]
      simp only [stepTracker, onImageLoaded_totalImages]
    · rw [h3]
      simp only [stepTracker, onImageLoaded_loadedImages, onImageLoaded_totalImages,
        completionFires]
      split_ifs <;> push_cast at * <;> omega

/-! The claims. -/

/-- C3: `getProgress()` returns `loadedImages / totalImages` when
`totalImages` is positive and 0 when `totalImages` is 0, never performing a
division by zero (the positive branch is the only one that divides). -/
theorem getProgress_division (m : PerformanceMetrics) :
    (0 < m.totalImages → getProgress m = (m.loadedImages : ℚ) / (m.totalImages : ℚ)) ∧
    (m.totalImages = 0 → getProgress m = 0) := by
  constructor
  · intro h
    unfold getProgress
    rw [if_pos h]
  · intro h
    unfold getProgress
    rw [if_neg (by omega)]

/-- Witness for C3 at concrete metrics: total 2 and loaded 1 give 1/2; total
0 gives 0. -/
theorem getProgress_division_witness :
    getProgress { imageLoadStart := 0, imageLoadEnd := 0, totalImages := 2, loadedImages := 1 } = 1 / 2 ∧
    getProgress { imageLoadStart := 0, imageLoadEnd := 0, totalImages := 0, loadedImages := 7 } = 0 := by
  constructor
  · rw [(getProgress_division
      { imageLoadStart := 0, imageLoadEnd := 0, totalImages := 2, loadedImages := 1 }).1
      (by norm_num)]
    norm_num
  · exact (getProgress_division
      { imageLoadStart := 0, imageLoadEnd := 0, totalImages := 0, loadedImages := 7 }).2 rfl

/-- C8: after the error handler runs, the component renders the error
placeholder and not the image, the error callback is invoked exactly once,
the tracker counter callback `onImageLoaded` is not invoked, and the tracker
metrics (in particular `loadedImages`) are unchanged. -/
theorem lazyImage_error_path (s : LazyState) (src : ImageSource)
    (cache : List String) (m : PerformanceMetrics) :
    (renderLazyImage cache src (handleImageError s cache m).state).showsErrorPlaceholder = true ∧
    (renderLazyImage cache src (handleImageError s cache m).state).showsImage = false ∧
    (handleImageError s cache m).log.onErrorCalls = 1 ∧
    (handleImageError s cache m).log.onImageLoadedCalls = 0 ∧
    (handleImageError s cache m).metrics.loadedImages = m.loadedImages ∧
    (handleImageError s cache m).cache = cache := by
  unfold handleImageError renderLazyImage
  simp

/-- C9: `startTracking` sets the start timestamp, the total and resets the
loaded count, but leaves `imageLoadEnd` unchanged, so a `getMetrics`
snapshot taken after a new `startTracking` call still carries the end
timestamp of the previous session. -/
theorem startTracking_keeps_imageLoadEnd (m : PerformanceMetrics) (now n : Int) :
    (getMetrics (startTracking m now n)).imageLoadEnd = (getMetrics m).imageLoadEnd ∧
    (getMetrics (startTracking m now n)).imageLoadStart = now ∧
    (getMetrics (startTracking m now n)).totalImages = n ∧
    (getMetrics (startTracking m now n)).loadedImages = 0 :=
  ⟨rfl, rfl, rfl, rfl⟩

/-- C1 counterexample: `startTracking(1)` followed by two `onImageLoaded()`
calls is a sequence of `startTracking` and `onImageLoaded` calls after which
`getProgress()` returns 2, which is outside the interval `[0,1]`. -/
theorem getProgress_above_one_counterexample :
    getProgress (runTrace initState
      [TrackerEvent.start 1 0, TrackerEvent.loaded 0, TrackerEvent.loaded 0]).metrics = 2 ∧
    ¬ getProgress (runTrace initState
      [TrackerEvent.start 1 0, TrackerEvent.loaded 0, TrackerEvent.loaded 0]).metrics ≤ 1 := by
  norm_num [runTrace, stepTracker, initState, initialMetrics, startTracking,
    onImageLoaded, completionFires, getProgress, List.foldl]

/-- C1 amended: after every sequence of `startTracking` and `onImageLoaded`
calls, `getProgress()` is non-negative, and it is at most 1 whenever the
loaded count does not exceed the total (i.e. as long as `onImageLoaded` has
not been called more times than the total of the current session). -/
theorem getProgress_bounds (tr : List TrackerEvent) :
    0 ≤ getProgress (runTrace initState tr).metrics ∧
    ((runTrace initState tr).metrics.loadedImages ≤ (runTrace initState tr).metrics.totalImages →
      getProgress (runTrace initState tr).metrics ≤ 1) := by
  have hl : 0 ≤ (runTrace initState tr).metrics.loadedImages :=
    runTrace_loadedImages_nonneg tr initState le_rfl
  constructor
  · unfold getProgress
    split_ifs with ht
    · apply div_nonneg
      · exact_mod_cast hl
      · exact_mod_cast le_of_lt ht
    · exact le_refl 0
  · intro hle
    unfold getProgress
    split_ifs with ht
    · rw [div_le_one (by exact_mod_cast ht)]
      exact_mod_cast hle
    · norm_num

/-- Witness for C1 at the trace `startTracking(2); onImageLoaded()`: the
loaded count 1 does not exceed the total 2 and the progress 1/2 lies in
`[0,1]`. -/
theorem getProgress_bounds_witness :
    0 ≤ getProgress (runTrace initState
      [TrackerEvent.start 2 0, TrackerEvent.loaded 0]).metrics ∧
    getProgress (runTrace initState
      [TrackerEvent.start 2 0, TrackerEvent.loaded 0]).metrics ≤ 1 :=
  ⟨(getProgress_bounds [TrackerEvent.start 2 0, TrackerEvent.loaded 0]).1,
   (getProgress_bounds [TrackerEvent.start 2 0, TrackerEvent.loaded 0]).2 (by decide)⟩

/-- The tracker state after `startTracking(n)` followed by exactly `j`
`onImageLoaded()` calls, from the initial state. -/
def afterLoads (n j : Nat) : TrackerState :=
  runTrace initState
    (TrackerEvent.start (n : Int) 0 :: List.replicate j (TrackerEvent.loaded 0))

theorem afterLoads_spec (n j : Nat) :
    (afterLoads n j).metrics.loadedImages = (j : Int) ∧
    (afterLoads n j).metrics.totalImages = (n : Int) ∧
    (afterLoads n j).completions = (if 1 ≤ n ∧ n ≤ j then 1 else 0) := by
  unfold afterLoads
  rw [runTrace_cons]
  obtain ⟨h1, h2, h3⟩ :=
    runTrace_replicate_loaded j 0 (stepTracker initState (TrackerEvent.start (n : Int) 0))
  simp only [stepTracker, startTracking, initState, initialMetrics] at h1 h2 h3 ⊢
  refine ⟨by rw [h1]; omega, by rw [h2], ?_⟩
  rw [h3]
  split_ifs <;> push_cast at * <;> omega

/-- C2 counterexample: for `n = 0`, `startTracking(0)` followed by zero
`onImageLoaded()` calls leaves `getProgress()` at 0 (the zero-total branch),
not 1, and the completion branch has fired zero times, not once. -/
theorem completion_at_zero_counterexample :
    getProgress (afterLoads 0 0).metrics = 0 ∧
    ¬ getProgress (afterLoads 0 0).metrics = 1 ∧
    (afterLoads 0 0).completions = 0 ∧
    ¬ (afterLoads 0 0).completions = 1 := by
  norm_num [afterLoads, runTrace, stepTracker, initState, initialMetrics,
    startTracking, getProgress, List.foldl, List.replicate]

/-- C2 amended: for every positive `n`, calling `startTracking(n)` and then
`onImageLoaded()` exactly `n` times yields `getProgress() = 1` and enters
the completion branch (the log/measurement) exactly once.  (For `n = 0` the
code returns progress 0 and never fires the completion branch.) -/
theorem completion_fires_exactly_once (n : Nat) (hn : 1 ≤ n) :
    getProgress (afterLoads n n).metrics = 1 ∧ (afterLoads n n).completions = 1 := by
  obtain ⟨h1, h2, h3⟩ := afterLoads_spec n n
  constructor
  · have hn0 : (0 : Int) < (n : Int) := by exact_mod_cast hn
    unfold getProgress
    rw [h1, h2, if_pos hn0, div_self]
    exact_mod_cast hn0.ne.symm
  · rw [h3, if_pos ⟨hn, le_refl n⟩]

/-- Witness for C2 at `n = 3`: `startTracking(3)` and three `onImageLoaded()`
calls give progress 1 and one completion. -/
theorem completion_fires_exactly_once_witness :
    getProgress (afterLoads 3 3).metrics = 1 ∧ (afterLoads 3 3).completions = 1 :=
  completion_fires_exactly_once 3 (by norm_num)

/-- C4: after `startTracking(n)`, `j` calls to `onImageLoaded()` leave the
loaded count at `j` — also past the total when `j > n` — and the completion
branch has fired exactly when `n` lies in `[1, j]` and then exactly once: it
fires only at the call where the loaded count equals the total, so once the
loaded count exceeds the total it never fires again in that session. -/
theorem overcount_skips_completion (n j : Nat) :
    (afterLoads n j).metrics.loadedImages = (j : Int) ∧
    (afterLoads n j).completions = (if 1 ≤ n ∧ n ≤ j then 1 else 0) ∧
    (afterLoads n j).completions ≤ 1 := by
  obtain ⟨h1, h2, h3⟩ := afterLoads_spec n j
  refine ⟨h1, h3, ?_⟩
  rw [h3]
  split_ifs <;> omega

/-- C5: `emptyHeadCache` is a reachable cache state (built only with
`cacheImage` from the empty cache) that is exactly at capacity with the
empty-string key as its oldest entry; caching the fresh identifier `x` then
evicts nothing — the `if (firstItem)` truthiness test fails on the empty
string — and the set grows to 51 entries, past the documented capacity. -/
theorem cacheImage_exceeds_capacity :
    emptyHeadCache.length = maxCacheSize ∧
    emptyHeadCache.head? = some "" ∧
    "x" ∉ emptyHeadCache ∧
    (cacheImage emptyHeadCache (ImageSource.str "x")).length = maxCacheSize + 1 ∧
    ¬ (cacheImage emptyHeadCache (ImageSource.str "x")).length ≤ maxCacheSize := by
  refine ⟨by decide, by decide, by decide, by decide, by decide⟩

/-- C6 counterexample: after `cacheImage("")`, `isImageCached("")` is true
but `isImageCached({uri: ""})` is false — the empty `uri` is falsy, so the
object form falls back to the key `[object Object]`. -/
theorem key_normalization_counterexample :
    isImageCached (cacheImage [] (ImageSource.str "")) (ImageSource.str "") = true ∧
    isImageCached (cacheImage [] (ImageSource.str ""))
      (ImageSource.obj (some "") "[object Object]") = false := by
  refine ⟨by decide, by decide⟩

/-- C6 amended: for every non-empty string `s`, the plain string `s` and an
object with `uri` field `s` derive the same cache key, so after caching
either form the two `isImageCached` queries agree on every cache.  (For the
empty string the object form falls back to `String(imageSource)` and the two
disagree.) -/
theorem isImageCached_key_normalization (s t : String) (c : List String) (hs : s ≠ "") :
    imageKeyOf (ImageSource.str s) = imageKeyOf (ImageSource.obj (some s) t) ∧
    isImageCached (cacheImage c (ImageSource.str s)) (ImageSource.str s)
      = isImageCached (cacheImage c (ImageSource.str s)) (ImageSource.obj (some s) t) ∧
    isImageCached (cacheImage c (ImageSource.obj (some s) t)) (ImageSource.str s)
      = isImageCached (cacheImage c (ImageSource.obj (some s) t)) (ImageSource.obj (some s) t) := by
  have hk : imageKeyOf (ImageSource.obj (some s) t) = s := by
    simp [imageKeyOf, hs]
  have hk2 : imageKeyOf (ImageSource.str s) = s := rfl
  refine ⟨hk.symm, ?_, ?_⟩ <;> simp only [isImageCached, hk, hk2]

/-- Witness for C6 at `s = "a"`, fallback `[object Object]`, empty cache. -/
theorem isImageCached_key_normalization_witness :
    isImageCached (cacheImage [] (ImageSource.str "a")) (ImageSource.str "a")
      = isImageCached (cacheImage [] (ImageSource.str "a"))
          (ImageSource.obj (some "a") "[object Object]") :=
  (isImageCached_key_normalization "a" "[object Object]" [] (by decide)).2.1

/-- C7 counterexample: `fullCache` is a reachable cache state at capacity
whose oldest entry is `k0`; calling `cacheImage` with the already-present
identifier `k0` deletes it as the eviction victim and re-appends it, so
`k0` moves from the head (oldest) to the last (freshest) position. -/
theorem reinsertion_at_capacity_counterexample :
    "k0" ∈ fullCache ∧
    fullCache.head? = some "k0" ∧
    fullCache.getLast? = some "k49" ∧
    (cacheImage fullCache (ImageSource.str "k0")).head? = some "k1" ∧
    (cacheImage fullCache (ImageSource.str "k0")).getLast? = some "k0" := by
  refine ⟨by decide, by decide, by decide, by decide, by decide⟩

/-- C7 amended: below capacity, calling `cacheImage` with an identifier that
is already present leaves the set — and its iteration order — unchanged, so
re-insertion does not refresh recency and the policy is oldest-insertion
first rather than least-recently-used; at capacity, eviction removes the
iteration-order-first (oldest remaining) entry whenever that entry is
truthy.  The one exception is an already-present identifier that is itself
the oldest entry of a set at capacity: it is evicted and re-appended,
moving to the freshest position. -/
theorem cacheImage_order_policy (c : List String) (k : String) :
    (k ∈ c → c.length < maxCacheSize → cacheImage c (ImageSource.str k) = c) ∧
    (∀ h t, c = h :: t → h ≠ "" → maxCacheSize ≤ c.length →
      cacheImage c (ImageSource.str k) = setAdd t k) := by
  constructor
  · intro hk hlen
    unfold cacheImage
    rw [if_neg (by omega)]
    simp [setAdd, imageKeyOf, hk]
  · intro h t hc hne hlen
    subst hc
    unfold cacheImage
    rw [if_pos hlen]
    simp only [List.head?]
    rw [if_neg hne]
    simp [setDelete, List.erase_cons_head, imageKeyOf]

/-- Witness for C7: re-caching `a` in the two-element cache `[a, b]` leaves
it unchanged, and caching the fresh key `x` into the at-capacity `fullCache`
evicts the head `k0` and appends `x` to the tail. -/
theorem cacheImage_order_policy_witness :
    cacheImage ["a", "b"] (ImageSource.str "a") = ["a", "b"] ∧
    cacheImage fullCache (ImageSource.str "x") = setAdd fullCache.tail "x" :=
  ⟨(cacheImage_order_policy ["a", "b"] "a").1 (by decide) (by decide),
   (cacheImage_order_policy fullCache "x").2 "k0" fullCache.tail (by decide)
     (by decide) (by decide)⟩

/-- C10 counterexample: `emptyHeadCache` is a reachable cache state holding
exactly 50 identifiers whose oldest entry is the empty string; calling
`cacheImage` with the already-present, non-oldest identifier `k5` evicts
nothing (the falsy empty-string victim skips the delete) and the set stays
at 50 entries, not 49. -/
theorem eviction_skipped_counterexample :
    emptyHeadCache.length = 50 ∧
    emptyHeadCache.head? = some "" ∧
    "k5" ∈ emptyHeadCache ∧
    cacheImage emptyHeadCache (ImageSource.str "k5") = emptyHeadCache ∧
    ¬ (cacheImage emptyHeadCache (ImageSource.str "k5")).length = 49 := by
  refine ⟨by decide, by decide, by decide, by decide, by decide⟩

/-- C10 amended: when the cache holds exactly 50 identifiers and its oldest
entry is truthy (not the empty string), calling `cacheImage` with an
identifier that is already present and is not the oldest entry still evicts
the oldest entry and shrinks the set to 49 — the eviction is triggered by
the size check alone. -/
theorem cacheImage_present_still_evicts (c : List String) (k h : String)
    (t : List String) (hc : c = h :: t) (hnodup : c.Nodup)
    (hlen : c.length = maxCacheSize) (hne : h ≠ "") (hk : k ∈ c) (hkh : k ≠ h) :
    (cacheImage c (ImageSource.str k)).length = maxCacheSize - 1 ∧
    h ∉ cacheImage c (ImageSource.str k) := by
  subst hc
  have hkt : k ∈ t := by
    rcases List.mem_cons.mp hk with h1 | h1
    · exact absurd h1 hkh
    · exact h1
  have hht : h ∉ t := (List.nodup_cons.mp hnodup).1
  unfold cacheImage
  rw [if_pos (by omega)]
  simp only [List.head?]
  rw [if_neg hne]
  simp only [setDelete, List.erase_cons_head, setAdd, imageKeyOf]
  rw [if_pos hkt]
  constructor
  · simp only [List.length_cons] at hlen
    omega
  · exact hht

/-- Witness for C10: caching the present, non-oldest `k1` into the
at-capacity `fullCache` (oldest entry `k0`, no duplicates) shrinks it to 49
entries and removes `k0`. -/
theorem cacheImage_present_still_evicts_witness :
    (cacheImage fullCache (ImageSource.str "k1")).length = maxCacheSize - 1 ∧
    "k0" ∉ cacheImage fullCache (ImageSource.str "k1") :=
  cacheImage_present_still_evicts fullCache "k1" "k0" fullCache.tail (by decide)
    (by decide) (by decide) (by decide) (by decide) (by decide)
